import Mathlib

/-!
Verification of the memory-store component of
`.agent/skills/claude-mem/scripts/memory_handler.py`.

The Python script is a CRUD surface over one SQLite table
`memories(id INTEGER PRIMARY KEY AUTOINCREMENT, tags TEXT,
content TEXT NOT NULL, timestamp DATETIME DEFAULT CURRENT_TIMESTAMP)`.

Modelling decisions:
* Strings are `List Char`; the once-per-call current time is an explicit
  `Nat` parameter (the stored `DATETIME` strings compare chronologically,
  so a `Nat` timestamp preserves the `ORDER BY` semantics).
* The SQL `LIKE` operator is embedded with SQLite's default semantics:
  `%` matches any character sequence, `_` matches exactly one character,
  and every other pattern character compares ASCII-case-insensitively
  (SQLite's default `case_sensitive_like = OFF` folds only A-Z/a-z).
* `AUTOINCREMENT` keeps a per-table sequence counter that never decreases,
  so the database state is the row list together with that counter `seq`;
  a fresh insert receives id `seq + 1`.
* `ORDER BY timestamp DESC` leaves the relative order of equal timestamps
  unspecified in SQLite; the model resolves ties deterministically by
  descending id (newest row first).
* `content` is declared `NOT NULL` and every write supplies a string, so
  `content` (and `tags`, which the script always populates) are total
  `List Char` fields.
* Python's `str.lower()` is modelled on the ASCII range (the replies the
  script compares against are ASCII).
-/

/-- SQLite's default LIKE case folding: only ASCII A-Z are lowered. -/
def sqliteLowerChar (c : Char) : Char :=
  if 'A' ≤ c ∧ c ≤ 'Z' then Char.ofNat (c.toNat + 32) else c

/-- Character comparison used by SQLite LIKE (ASCII-case-insensitive). -/
def charLikeEq (a b : Char) : Bool :=
  sqliteLowerChar a == sqliteLowerChar b

/-- SQLite LIKE pattern matching (no ESCAPE clause): `%` matches any
sequence of characters, `_` matches exactly one character, any other
character matches ASCII-case-insensitively. -/
def likeMatch : List Char → List Char → Bool
  | [], s => s.isEmpty
  | p :: ps, s =>
    if p = '%' then (List.range (s.length + 1)).any (fun k => likeMatch ps (s.drop k))
    else
      match s with
      | [] => false
      | c :: cs => if p = '_' then likeMatch ps cs else charLikeEq p c && likeMatch ps cs

/-- The pattern the script builds for a query: f-string percent-query-percent. -/
def likePattern (q : List Char) : List Char := '%' :: (q ++ ['%'])

/-- Literal (case-sensitive) prefix test on character lists. -/
def isPrefixChars : List Char → List Char → Bool
  | [], _ => true
  | _ :: _, [] => false
  | a :: as, b :: bs => a == b && isPrefixChars as bs

/-- Literal (case-sensitive) substring occurrence: the query occurs
character-for-character somewhere in the target. -/
def occursIn (q s : List Char) : Bool :=
  (List.range (s.length + 1)).any (fun k => isPrefixChars q (s.drop k))

/-- Python's str.lower, modelled on the ASCII range. -/
def pyLower (s : List Char) : List Char := s.map Char.toLower

/-- One row of the `memories` table. -/
structure Memory where
  id : Nat
  tags : List Char
  content : List Char
  timestamp : Nat
deriving DecidableEq, Repr

/-- The database state: the rows of the single `memories` table plus the
AUTOINCREMENT sequence counter (SQLite's `sqlite_sequence` entry), which
records the largest id ever assigned. -/
structure DB where
  rows : List Memory
  seq : Nat
deriving DecidableEq, Repr

/-- The WHERE clause of `search_memories`:
`tags LIKE '%q%' OR content LIKE '%q%'`. -/
def rowMatches (q : List Char) (m : Memory) : Bool :=
  likeMatch (likePattern q) m.tags || likeMatch (likePattern q) m.content

/-- Sort priority of `ORDER BY timestamp DESC`: `a` may be placed at or
before `b` when `a`'s timestamp is larger, with SQLite's unspecified tie
order resolved by descending id. The claim theorems do not depend on the
direction of this tie-break: the search theorems are tie-insensitive, and
the save-then-search theorem counts every equal-timestamp row as a
potential predecessor of the new row. -/
def memLE (a b : Memory) : Prop :=
  b.timestamp < a.timestamp ∨ (a.timestamp = b.timestamp ∧ b.id ≤ a.id)

instance : DecidableRel memLE := fun a b =>
  inferInstanceAs (Decidable (b.timestamp < a.timestamp ∨
    (a.timestamp = b.timestamp ∧ b.id ≤ a.id)))

instance : IsTotal Memory memLE where
  total a b := by
    unfold memLE
    omega

instance : IsTrans Memory memLE where
  trans a b c hab hbc := by
    unfold memLE at *
    omega

/-- The row list produced by the SELECT of `search_memories`:
filter by the WHERE clause, `ORDER BY timestamp DESC`, `LIMIT 5`. -/
def searchRows (q : List Char) (rows : List Memory) : List Memory :=
  (List.insertionSort memLE (rows.filter (rowMatches q))).take 5

/-- What `search_memories` reports on stdout: the matched rows, or the
informational no-results message. -/
inductive SearchOutcome
  | results (rows : List Memory)
  | noResults
deriving DecidableEq, Repr

/-- `search_memories`: prints the rows when the result list is non-empty,
otherwise prints the informational "No relevant knowledge found" line. -/
def search_memories (q : List Char) (rows : List Memory) : SearchOutcome :=
  if (searchRows q rows).isEmpty then .noResults else .results (searchRows q rows)

/-- `save_memory`: INSERT INTO memories (tags, content) VALUES (?, ?);
the AUTOINCREMENT id is `seq + 1` and the timestamp defaults to the
current time `now`. -/
def save_memory (text tags : List Char) (now : Nat) (db : DB) : DB :=
  { rows := db.rows ++ [{ id := db.seq + 1, tags := tags, content := text, timestamp := now }]
    seq := db.seq + 1 }

/-- `delete_memory`: DELETE FROM memories WHERE id = ?. The CLI parses the
argument as a Python int, hence `Int`. -/
def delete_memory (target : Int) (rows : List Memory) : List Memory :=
  rows.filter (fun m => (m.id : Int) != target)

/-- `wipe_all`: reads a confirmation reply; DELETE FROM memories runs
exactly when the lowercased reply equals the single character y. -/
def wipe_all (confirm : List Char) (rows : List Memory) : List Memory :=
  if pyLower confirm = ['y'] then [] else rows

/-- `init_db`: CREATE TABLE IF NOT EXISTS — creates an empty table when
the database has none, and leaves an existing table untouched. -/
def init_db : Option DB → DB
  | none => { rows := [], seq := 0 }
  | some db => db

/-- The argparse namespace of the script's `__main__` block. -/
structure Args where
  save : Option (List Char)
  tags : Option (List Char)
  query : Option (List Char)
  del : Option Int
  wipe : Bool

/-- Python truthiness of an optional string: None and the empty string
are falsy. -/
def truthyStr : Option (List Char) → Bool
  | none => false
  | some s => !s.isEmpty

/-- Python truthiness of an optional int: None and 0 are falsy. -/
def truthyInt : Option Int → Bool
  | none => false
  | some n => n != 0

/-- The `if args.save: ... elif args.search: ... elif args.delete: ...
elif args.wipe: ...` dispatch of `__main__`, tracking the database state
it leaves behind. `args.tags or "general"` falls back to "general" when
tags is None or empty. -/
def runMain (args : Args) (confirm : List Char) (now : Nat) (db : DB) : DB :=
  if truthyStr args.save then
    save_memory (args.save.getD [])
      (if truthyStr args.tags then args.tags.getD [] else ('g' :: 'e' :: 'n' :: 'e' :: 'r' :: 'a' :: 'l' :: [])) now db
  else if truthyStr args.query then db
  else if truthyInt args.del then { rows := delete_memory (args.del.getD 0) db.rows, seq := db.seq }
  else if args.wipe then { rows := wipe_all confirm db.rows, seq := db.seq }
  else db

/-- Written from the claim's words, for comparison with `rowMatches`: a
record is matched when the query occurs case-sensitively and literally
as a substring of its tags or its content. -/
def specMatch (q : List Char) (m : Memory) : Bool :=
  occursIn q m.tags || occursIn q m.content

/-- The data-model invariants of the store: ids are pairwise distinct and
never exceed the AUTOINCREMENT counter. (`content` can never be null:
the schema declares it NOT NULL and every insert supplies a string, which
the model reflects by making `content` a total field.) -/
def WF (db : DB) : Prop :=
  (db.rows.map Memory.id).Nodup ∧ ∀ m ∈ db.rows, m.id ≤ db.seq

theorem charLikeEq_refl (c : Char) : charLikeEq c c = true := by
  simp [charLikeEq]

theorem likeMatch_nil (s : List Char) : likeMatch [] s = s.isEmpty := rfl

theorem likeMatch_pct (ps s : List Char) :
    likeMatch ('%' :: ps) s =
      (List.range (s.length + 1)).any (fun k => likeMatch ps (s.drop k)) := rfl

theorem likeMatch_underscore_cons (ps : List Char) (c : Char) (cs : List Char) :
    likeMatch ('_' :: ps) (c :: cs) = likeMatch ps cs := rfl

theorem likeMatch_cons_cons {p : Char} (ps : List Char) (c : Char) (cs : List Char)
    (hp : ¬ p = '%') (hu : ¬ p = '_') :
    likeMatch (p :: ps) (c :: cs) = (charLikeEq p c && likeMatch ps cs) := by
  simp only [likeMatch]
  rw [if_neg hp, if_neg hu]

/-- Matching the pattern q-percent against q followed by anything succeeds:
every pattern character can match its own literal occurrence. -/
theorem likeMatch_self_append : ∀ (q b : List Char), likeMatch (q ++ ['%']) (q ++ b) = true
  | [], b => by
    rw [List.nil_append, List.nil_append, likeMatch_pct, List.any_eq_true]
    refine ⟨b.length, List.mem_range.2 (by omega), ?_⟩
    rw [likeMatch_nil, List.drop_length, List.isEmpty_nil]
  | c :: q', b => by
    by_cases hp : c = '%'
    · subst hp
      rw [List.cons_append, List.cons_append, likeMatch_pct, List.any_eq_true]
      refine ⟨1, List.mem_range.2 (by simp), ?_⟩
      simpa using likeMatch_self_append q' b
    · by_cases hu : c = '_'
      · subst hu
        rw [List.cons_append, List.cons_append, likeMatch_underscore_cons]
        exact likeMatch_self_append q' b
      · rw [List.cons_append, List.cons_append, likeMatch_cons_cons _ _ _ hp hu,
          charLikeEq_refl, Bool.true_and]
        exact likeMatch_self_append q' b

theorem isPrefixChars_append : ∀ {q t : List Char}, isPrefixChars q t = true →
    ∃ b, t = q ++ b
  | [], t, _ => ⟨t, rfl⟩
  | a :: as, [], h => by simp [isPrefixChars] at h
  | a :: as, b :: bs, h => by
    simp only [isPrefixChars, Bool.and_eq_true, beq_iff_eq] at h
    obtain ⟨rest, hrest⟩ := isPrefixChars_append h.2
    exact ⟨rest, by simp [h.1, hrest]⟩

/-- A literal case-sensitive substring occurrence always satisfies the
LIKE pattern the script builds (wildcard characters in the query only
widen the match). -/
theorem likeMatch_of_occursIn {q s : List Char} (h : occursIn q s = true) :
    likeMatch (likePattern q) s = true := by
  simp only [occursIn, List.any_eq_true, List.mem_range] at h
  obtain ⟨k, hk, hpre⟩ := h
  obtain ⟨b, hb⟩ := isPrefixChars_append hpre
  rw [likePattern, likeMatch_pct, List.any_eq_true]
  exact ⟨k, List.mem_range.2 hk, by rw [hb]; exact likeMatch_self_append q b⟩

theorem mem_searchRows {q : List Char} {rows : List Memory} {m : Memory}
    (h : m ∈ searchRows q rows) : m ∈ rows ∧ rowMatches q m = true := by
  have h1 : m ∈ List.insertionSort memLE (rows.filter (rowMatches q)) :=
    List.take_subset 5 _ h
  have h2 : m ∈ rows.filter (rowMatches q) := (List.mem_insertionSort memLE).1 h1
  exact List.mem_filter.1 h2

theorem searchRows_eq_of_le {q : List Char} {rows : List Memory}
    (h : (rows.filter (rowMatches q)).length ≤ 5) :
    searchRows q rows = List.insertionSort memLE (rows.filter (rowMatches q)) := by
  unfold searchRows
  exact List.take_of_length_le (by rwa [List.length_insertionSort])

/-- An element of a pairwise-ordered list sits among the first n entries as
soon as fewer than n elements can be placed before it: every x related to
m by R is either m itself or counted by p, and p counts fewer than n. -/
theorem mem_take_of_countP_lt {α : Type} {R : α → α → Prop} {p : α → Bool} :
    ∀ (n : Nat) (l : List α) (m : α), l.Pairwise R → m ∈ l →
      (∀ x ∈ l, R x m → x = m ∨ p x = true) → l.countP p < n → m ∈ l.take n
  | n, [], m, _, hm, _, _ => absurd hm (List.not_mem_nil m)
  | n, a :: l', m, hpw, hm, hrel, hcnt => by
    obtain ⟨n', rfl⟩ : ∃ n', n = n' + 1 := ⟨n - 1, by omega⟩
    rw [List.take_succ_cons]
    rcases List.mem_cons.1 hm with rfl | hm'
    · exact List.mem_cons_self _ _
    · have hRam : R a m := (List.pairwise_cons.1 hpw).1 m hm'
      rcases hrel a (List.mem_cons_self a l') hRam with rfl | hpa
      · exact List.mem_cons_self _ _
      · have hcnt' : l'.countP p < n' := by
          have hc : (a :: l').countP p = l'.countP p + 1 :=
            List.countP_cons_of_pos p l' hpa
          omega
        exact List.mem_cons_of_mem a
          (mem_take_of_countP_lt n' l' m (List.pairwise_cons.1 hpw).2 hm'
            (fun x hx => hrel x (List.mem_cons_of_mem a hx)) hcnt')

/-- Claim C1 (counterexample): search is not a case-sensitive literal
substring filter. The stored record with content "a" is returned for the
query "A" (SQLite LIKE folds ASCII case), although "A" does not occur
case-sensitively in its tags or content. -/
theorem c1_counterexample :
    searchRows ['A'] [⟨1, ['t'], ['a'], 0⟩] = [⟨1, ['t'], ['a'], 0⟩] ∧
    specMatch ['A'] ⟨1, ['t'], ['a'], 0⟩ = false := by decide

/-- Claim C1 (amended): every record returned by search is a stored record
accepted by the SQL LIKE filter percent-query-percent on tags or content
(ASCII-case-insensitive, with percent and underscore acting as wildcards),
and when at most 5 stored records pass that filter, the returned records
are exactly the stored records passing it. -/
theorem c1_search_matches_like (q : List Char) (rows : List Memory) (m : Memory) :
    (m ∈ searchRows q rows → m ∈ rows ∧ rowMatches q m = true) ∧
    ((rows.filter (rowMatches q)).length ≤ 5 →
      (m ∈ searchRows q rows ↔ m ∈ rows ∧ rowMatches q m = true)) := by
  constructor
  · exact mem_searchRows
  · intro h5
    rw [searchRows_eq_of_le h5, List.mem_insertionSort, List.mem_filter]

/-- Witness for C1 at a concrete store: with one stored record matching
the query "a", search returns exactly it. -/
theorem c1_search_matches_like_witness :
    (⟨1, ['t'], ['a'], 0⟩ : Memory) ∈ searchRows ['a'] [⟨1, ['t'], ['a'], 0⟩] ↔
      (⟨1, ['t'], ['a'], 0⟩ : Memory) ∈ [(⟨1, ['t'], ['a'], 0⟩ : Memory)] ∧
        rowMatches ['a'] ⟨1, ['t'], ['a'], 0⟩ = true :=
  (c1_search_matches_like ['a'] [⟨1, ['t'], ['a'], 0⟩] ⟨1, ['t'], ['a'], 0⟩).2 (by decide)

/-- Claim C2: search returns at most 5 rows, sorted by descending
timestamp, and reports the informational no-results outcome (not an
error) when no stored record matches. -/
theorem c2_search_limit_sorted (q : List Char) (rows : List Memory) :
    (searchRows q rows).length ≤ 5 ∧
    (searchRows q rows).Pairwise (fun a b => b.timestamp ≤ a.timestamp) ∧
    ((∀ m ∈ rows, rowMatches q m = false) →
      search_memories q rows = SearchOutcome.noResults) := by
  refine ⟨?_, ?_, ?_⟩
  · unfold searchRows
    rw [List.length_take]
    exact min_le_left _ _
  · have hs : (List.insertionSort memLE (rows.filter (rowMatches q))).Sorted memLE :=
      List.sorted_insertionSort memLE _
    have ht : (searchRows q rows).Pairwise memLE :=
      hs.sublist (List.take_sublist _ _)
    exact ht.imp (fun hab => by rcases hab with h | ⟨h, _⟩ <;> omega)
  · intro hnone
    have hf : rows.filter (rowMatches q) = [] :=
      List.filter_eq_nil_iff.2 (fun m hm => by simp [hnone m hm])
    unfold search_memories searchRows
    rw [hf]
    rfl

/-- Witness for C2 at a concrete store: querying "z" against a store
whose only record does not match yields the no-results outcome. -/
theorem c2_search_limit_sorted_witness :
    search_memories ['z'] [⟨1, ['t'], ['a'], 0⟩] = SearchOutcome.noResults :=
  (c2_search_limit_sorted ['z'] [⟨1, ['t'], ['a'], 0⟩]).2.2 (by decide)

/-- Claim C4: wipe-all deletes nothing when the confirmation reply is
declined (lowercased reply differs from y) and deletes every row when it
is given (lowercased reply equals y); neither path is an error. -/
theorem c4_wipe_confirmation (confirm : List Char) (rows : List Memory) :
    (¬ pyLower confirm = ['y'] → wipe_all confirm rows = rows) ∧
    (pyLower confirm = ['y'] → wipe_all confirm rows = []) := by
  unfold wipe_all
  exact ⟨fun h => by rw [if_neg h], fun h => by rw [if_pos h]⟩

/-- Witness for C4: replying n leaves the row, replying Y removes it. -/
theorem c4_wipe_confirmation_witness :
    wipe_all ['n'] [⟨1, ['t'], ['a'], 0⟩] = [⟨1, ['t'], ['a'], 0⟩] ∧
    wipe_all ['Y'] [⟨1, ['t'], ['a'], 0⟩] = [] :=
  ⟨(c4_wipe_confirmation ['n'] [⟨1, ['t'], ['a'], 0⟩]).1 (by decide),
   (c4_wipe_confirmation ['Y'] [⟨1, ['t'], ['a'], 0⟩]).2 (by decide)⟩

/-- Claim C5: deleting an id that is not stored leaves every row in
place (and is not an error); in general a row survives the delete exactly
when its id differs from the target, so a present id removes exactly that
record and no other. -/
theorem c5_delete_exact (target : Int) (rows : List Memory) :
    ((∀ m ∈ rows, (m.id : Int) ≠ target) → delete_memory target rows = rows) ∧
    (∀ m, m ∈ delete_memory target rows ↔ m ∈ rows ∧ (m.id : Int) ≠ target) := by
  constructor
  · intro h
    unfold delete_memory
    refine List.filter_eq_self.2 (fun m hm => ?_)
    simpa using h m hm
  · intro m
    unfold delete_memory
    rw [List.mem_filter]
    simp

/-- Witness for C5: deleting the absent id 7 from a one-row store leaves
the store unchanged. -/
theorem c5_delete_exact_witness :
    delete_memory 7 [⟨1, ['t'], ['a'], 0⟩] = [⟨1, ['t'], ['a'], 0⟩] :=
  (c5_delete_exact 7 [⟨1, ['t'], ['a'], 0⟩]).1 (by decide)

/-- Claim C3 (counterexample): a freshly saved matching record need not be
returned by a subsequent search. Five stored records with content "x" carry
timestamp 100; saving content "x" at time 50 and searching "x" keeps only
the five later records, so the new record (id 6) is absent from the
results although the query is a literal substring of its content. -/
theorem c3_counterexample :
    (⟨6, ['t'], ['x'], 50⟩ : Memory) ∉
      searchRows ['x']
        (save_memory ['x'] ['t'] 50
          ⟨[⟨1, ['t'], ['x'], 100⟩, ⟨2, ['t'], ['x'], 100⟩, ⟨3, ['t'], ['x'], 100⟩,
            ⟨4, ['t'], ['x'], 100⟩, ⟨5, ['t'], ['x'], 100⟩], 5⟩).rows := by decide

/-- Claim C3 (amended): after save(content, tags) at the current time,
searching for a literal substring of the content or of the tags returns
the newly saved Memory among the results, provided the table is
well-formed (no stored id exceeds the AUTOINCREMENT counter) and fewer
than 5 already-stored matching rows carry a later-or-equal timestamp.
Counting equal-timestamp rows as potential predecessors makes the
statement independent of SQLite's unspecified ORDER BY order among equal
timestamps: under every resolution of those ties the new record is among
the 5 most recent matches. -/
theorem c3_save_then_search (text tg q : List Char) (now : Nat) (db : DB)
    (hsub : occursIn q text = true ∨ occursIn q tg = true)
    (hids : ∀ m ∈ db.rows, m.id ≤ db.seq)
    (hlt : (db.rows.filter
      (fun m => rowMatches q m && decide (now ≤ m.timestamp))).length < 5) :
    (⟨db.seq + 1, tg, text, now⟩ : Memory) ∈
      searchRows q (save_memory text tg now db).rows := by
  set m' : Memory := ⟨db.seq + 1, tg, text, now⟩ with hm'
  have hmatch : rowMatches q m' = true := by
    rcases hsub with h | h <;> simp [rowMatches, likeMatch_of_occursIn h, hm']
  have hrows : (save_memory text tg now db).rows = db.rows ++ [m'] := rfl
  rw [hrows]
  unfold searchRows
  have hLfilter : (db.rows ++ [m']).filter (rowMatches q) =
      db.rows.filter (rowMatches q) ++ [m'] := by
    rw [List.filter_append]
    simp [hmatch]
  set L := (db.rows ++ [m']).filter (rowMatches q) with hL
  set S := List.insertionSort memLE L with hS
  have hperm : S.Perm L := List.perm_insertionSort memLE L
  have hpw : S.Pairwise memLE := List.sorted_insertionSort memLE L
  have hmem : m' ∈ S := by
    rw [hperm.mem_iff, hLfilter]
    exact List.mem_append_right _ (List.mem_singleton.2 rfl)
  refine mem_take_of_countP_lt (R := memLE)
    (p := fun x => decide (now ≤ x.timestamp) && decide (x.id ≤ db.seq))
    5 S m' hpw hmem ?_ ?_
  · intro x hx hR
    have hxL : x ∈ L := hperm.mem_iff.1 hx
    rw [hLfilter] at hxL
    rcases List.mem_append.1 hxL with hxf | hxm
    · have hxdb : x ∈ db.rows := (List.mem_filter.1 hxf).1
      have hxid : x.id ≤ db.seq := hids x hxdb
      rcases hR with hts | ⟨_, hid⟩
      · have hts' : now < x.timestamp := by simpa [hm'] using hts
        refine Or.inr ?_
        simp only [Bool.and_eq_true, decide_eq_true_eq]
        omega
      · exact absurd hid (by simp [hm']; omega)
    · exact Or.inl (List.mem_singleton.1 hxm)
  · have hc : S.countP (fun x => decide (now ≤ x.timestamp) && decide (x.id ≤ db.seq)) =
        L.countP (fun x => decide (now ≤ x.timestamp) && decide (x.id ≤ db.seq)) :=
      hperm.countP_eq _
    rw [hc, hLfilter, List.countP_append]
    have h0 : List.countP
        (fun x => decide (now ≤ x.timestamp) && decide (x.id ≤ db.seq)) [m'] = 0 := by
      simp [hm']
    have h1 : (db.rows.filter (rowMatches q)).countP
        (fun x => decide (now ≤ x.timestamp) && decide (x.id ≤ db.seq)) =
        (db.rows.filter
          (fun m => rowMatches q m && decide (now ≤ m.timestamp))).length := by
      rw [List.countP_filter, List.countP_eq_length_filter]
      congr 1
      refine List.filter_congr (fun m hm => ?_)
      have hms : m.id ≤ db.seq := hids m hm
      simp [hms, Bool.and_comm]
    omega

/-- Witness for C3: saving content "a" into the empty store at time 0 and
searching "a" returns the new record (id 1). -/
theorem c3_save_then_search_witness :
    (⟨1, ['g'], ['a'], 0⟩ : Memory) ∈
      searchRows ['a'] (save_memory ['a'] ['g'] 0 ⟨[], 0⟩).rows :=
  c3_save_then_search ['a'] ['g'] ['a'] 0 ⟨[], 0⟩ (Or.inl (by decide))
    (by simp) (by decide)

/-- Claim C6 (counterexample): saving the empty content string through the
CLI stores nothing at all: the empty string is falsy in Python, so the
save branch is skipped and the empty store stays empty, contradicting the
claim that every content string yields a stored record. -/
theorem c6_counterexample :
    (runMain ⟨some [], none, none, none, false⟩ [] 0 ⟨[], 0⟩).rows = [] := by decide

/-- Claim C6 (amended): for every non-empty content string, invoking save
through the CLI without a tags value appends one record with tags
"general", the fresh id seq + 1, and the current timestamp. -/
theorem c6_cli_default_tags (text confirm : List Char) (now : Nat) (db : DB)
    (h : text ≠ []) :
    (runMain ⟨some text, none, none, none, false⟩ confirm now db).rows =
      db.rows ++ [⟨db.seq + 1, ['g', 'e', 'n', 'e', 'r', 'a', 'l'], text, now⟩] ∧
    (runMain ⟨some text, none, none, none, false⟩ confirm now db).seq = db.seq + 1 := by
  have ht : truthyStr (some text) = true := by
    simp [truthyStr, h]
  simp [runMain, ht, truthyStr, save_memory, h]

/-- Witness for C6: saving "h" with no tags into the empty store yields
one record tagged "general" with id 1 and the given timestamp. -/
theorem c6_cli_default_tags_witness :
    (runMain ⟨some ['h'], none, none, none, false⟩ [] 7 ⟨[], 0⟩).rows =
      ([] : List Memory) ++ [⟨0 + 1, ['g', 'e', 'n', 'e', 'r', 'a', 'l'], ['h'], 7⟩] ∧
    (runMain ⟨some ['h'], none, none, none, false⟩ [] 7 ⟨[], 0⟩).seq = 0 + 1 :=
  c6_cli_default_tags ['h'] [] 7 ⟨[], 0⟩ (by decide)

/-- Claim C7: initialize is idempotent and non-destructive: running it on
an existing state returns that state unchanged (so running it twice is
the same as running it once), and it never fails. -/
theorem c7_init_idempotent (s : Option DB) (db : DB) :
    init_db (some (init_db s)) = init_db s ∧ init_db (some db) = db :=
  ⟨rfl, rfl⟩

/-- Claim C8: the operations preserve the data-model invariants. On a
well-formed state, save keeps ids pairwise distinct and below the new
counter, assigns the fresh id seq + 1 strictly above every previously
assigned id, and only appends (existing rows, hence existing ids, are
untouched); delete, wipe and initialize also preserve well-formedness.
The content field can never be null: the schema declares it NOT NULL and
every insert supplies a string, which the model reflects by making
content a total field of Memory. -/
theorem c8_invariants (db : DB) (text tg : List Char) (now : Nat) (target : Int)
    (confirm : List Char) (h : WF db) :
    WF (save_memory text tg now db) ∧
    (∀ m ∈ db.rows, m.id < (save_memory text tg now db).seq) ∧
    (save_memory text tg now db).rows = db.rows ++ [⟨db.seq + 1, tg, text, now⟩] ∧
    WF ⟨delete_memory target db.rows, db.seq⟩ ∧
    WF ⟨wipe_all confirm db.rows, db.seq⟩ ∧
    WF (init_db (some db)) := by
  obtain ⟨hnd, hle⟩ := h
  unfold WF save_memory init_db
  refine ⟨⟨?_, ?_⟩, ?_, rfl, ⟨?_, ?_⟩, ?_, ⟨hnd, hle⟩⟩
  · rw [List.map_append, List.nodup_append]
    refine ⟨hnd, List.nodup_singleton _, ?_⟩
    intro a ha hb
    rcases List.mem_map.1 ha with ⟨m, hm, rfl⟩
    have h1 := hle m hm
    have h2 : m.id = db.seq + 1 := by simpa using hb
    omega
  · intro m hm
    rcases List.mem_append.1 hm with hm' | hm'
    · exact Nat.le_succ_of_le (hle m hm')
    · have hh : m = ⟨db.seq + 1, tg, text, now⟩ := List.mem_singleton.1 hm'
      simp [hh]
  · intro m hm
    exact Nat.lt_succ_of_le (hle m hm)
  · exact hnd.sublist ((List.filter_sublist _).map Memory.id)
  · intro m hm
    exact hle m (List.mem_of_mem_filter hm)
  · unfold wipe_all
    split
    · exact ⟨List.nodup_nil, by simp⟩
    · exact ⟨hnd, hle⟩

/-- Witness for C8: saving into the well-formed empty store yields a
well-formed store. -/
theorem c8_invariants_witness : WF (save_memory ['a'] ['g'] 3 ⟨[], 0⟩) :=
  (c8_invariants ⟨[], 0⟩ ['a'] ['g'] 3 2 ['n'] (by simp [WF])).1

/-- Claim C9: invoking the CLI with delete argument 0 takes no branch at
all (0 is falsy in Python), so the database is left unchanged for every
state. -/
theorem c9_delete_zero_noop (confirm : List Char) (now : Nat) (db : DB) :
    runMain ⟨none, none, none, some 0, false⟩ confirm now db = db := rfl

/-- Claim C10: the wipe confirmation deletes the rows exactly when the
lowercased reply is the single character y (or the table was already
empty); in particular the reply "yes" declines and leaves every row
intact. -/
theorem c10_wipe_accepts_exactly_y (confirm : List Char) (rows : List Memory) :
    (wipe_all confirm rows = [] ↔ (pyLower confirm = ['y'] ∨ rows = [])) ∧
    wipe_all ['y', 'e', 's'] rows = rows := by
  constructor
  · unfold wipe_all
    by_cases h : pyLower confirm = ['y']
    · rw [if_pos h]
      simp [h]
    · rw [if_neg h]
      simp [h]
  · unfold wipe_all
    rw [if_neg (by decide : ¬ pyLower ['y', 'e', 's'] = ['y'])]

example : likeMatch (likePattern ['A']) ['x', 'a', 'y'] = true := by decide
example : likeMatch (likePattern ['a']) ['b'] = false := by decide
example : occursIn ['A'] ['x', 'a', 'y'] = false := by decide
example : occursIn ['a'] ['x', 'a', 'y'] = true := by decide
example : likeMatch (likePattern ['%']) ['q'] = true := by decide
example : searchRows ['a'] [⟨1, ['t'], ['a'], 0⟩] = [⟨1, ['t'], ['a'], 0⟩] := by decide
